import Mathlib

/-!
Verification of the update-resolution pipeline of the specer repository.

The Python sources are shallowly embedded as executable Lean functions.
Text is modelled as a list of characters so that every operation is a
structurally recursive, kernel-computable function; Python floats in the
embedding vectors are idealised as rational numbers, and the cosine score
dotted over the product of norms is represented exactly as a pair
(numerator, squared denominator) compared without any square root.
Python exceptions are modelled with the Except monad, and the on-disk
state touched by one resolution request (the document text and the
per-document embedding-vector cache) is threaded explicitly.
-/

deriving instance DecidableEq for Except

namespace Specer

/-- Text is modelled as a list of characters. -/
abbrev Str := List Char

/-- Coerce a Lean string literal into the character-list model. -/
def txt (s : String) : Str := s.data

/-- Whitespace test matching the character class that Python uses for
str.strip and for a regex backslash-s on ASCII input. -/
def isWS (c : Char) : Bool :=
  c == ' ' || c == '\t' || c == '\n' || c == '\r' || c == '\x0b' || c == '\x0c'

/-- Model of Python text.split with a newline separator: every newline is a
separator, empty pieces are kept, and the empty text gives one empty piece. -/
def splitNL : Str → List Str
  | [] => [[]]
  | c :: cs =>
      let r := splitNL cs
      if c == '\n' then [] :: r
      else
        match r with
        | h :: t => (c :: h) :: t
        | [] => [[c]]

/-- Model of joining lines with a newline, as in a Python newline join. -/
def joinNL : List Str → Str
  | [] => []
  | [x] => x
  | x :: y :: ys => x ++ '\n' :: joinNL (y :: ys)

/-- Model of Python str.strip: drop whitespace from both ends. -/
def trimS (s : Str) : Str := ((s.dropWhile isWS).reverse.dropWhile isWS).reverse

/-- Model of Python str.startswith. -/
def startsW : Str → Str → Bool
  | _, [] => true
  | [], _ :: _ => false
  | c :: cs, p :: ps => c == p && startsW cs ps

/-- Model of Python str.endswith. -/
def endsW (s pat : Str) : Bool := startsW s.reverse pat.reverse

/-- ASCII lower-casing of one character, as Python str.lower does on the
ASCII inputs this pipeline handles. -/
def lowerChar (c : Char) : Char :=
  if 'A' ≤ c ∧ c ≤ 'Z' then Char.ofNat (c.toNat + 32) else c

/-- Model of Python str.lower on ASCII text. -/
def toLowerS (s : Str) : Str := s.map lowerChar

/-- First line of a text, the index-zero element of its newline split. -/
def headLine (chunk : Str) : Str := (splitNL chunk).headD []

/-- Model of the header test of the hierarchical chunker in
src/server/main.py line 356: one or more hash marks followed by a
whitespace character; returns the header level (the hash count). -/
def headerLevel (line : Str) : Option Nat :=
  match line.takeWhile (· == '#'), line.dropWhile (· == '#') with
  | [], _ => none
  | _ :: _, [] => none
  | hs, c :: _ => if isWS c then some hs.length else none

/-- Loop of the hierarchical chunk splitter, src/server/main.py lines
355-385: the buffer of lines and the current header level are carried,
a header line splits the buffer when the buffer is non-empty and either
the buffer is intro text or the new level is at most the current level. -/
def splitChunksAux : List Str → List Str → Option Nat → List Str
  | [], cur, _ => if cur.isEmpty then [] else [joinNL cur]
  | line :: rest, cur, lvl =>
      match headerLevel line with
      | some L =>
          let doSplit : Bool :=
            !cur.isEmpty && (match lvl with | none => true | some pl => decide (L ≤ pl))
          if doSplit then
            joinNL cur :: splitChunksAux rest [line] (some L)
          else
            splitChunksAux rest (cur ++ [line])
              (match lvl with | none => some L | some pl => some pl)
      | none => splitChunksAux rest (cur ++ [line]) lvl

/-- Model of the hierarchical chunk splitting of one intent body,
src/server/main.py lines 350-388, including the final flush and the
fallback that emits the whole body when no chunk was produced. -/
def splitChunks (raw : Str) : List Str :=
  let cs := splitChunksAux (splitNL raw) [] none
  if cs.isEmpty && !raw.isEmpty then [raw] else cs

/-! ## Embedding vectors and cosine similarity (src/server/vector_store.py) -/

/-- Dot product of two equal-length vectors, the aligned case of np.dot in
cosine_similarity, src/server/vector_store.py line 25. -/
def dotted (v1 v2 : List ℚ) : ℚ := (List.zipWith (fun a b => a * b) v1 v2).sum

/-- Squared Euclidean norm of a vector; the np.linalg.norm calls of
cosine_similarity compare the square root of this against zero, which is
zero exactly when this is zero. -/
def normSq (v : List ℚ) : ℚ := (v.map (fun x => x * x)).sum

/-- Exact representation of a similarity score value num divided by the
square root of den; every score built by the pipeline has positive den. -/
structure Score where
  num : ℚ
  den : ℚ
deriving DecidableEq

/-- Exact model of the Python float comparison score greater-than
best_score, where a score pair (n, d) denotes the real number n divided
by the square root of d: compare by sign, then by squares. -/
def scoreGt (a b : Score) : Bool :=
  if 0 ≤ a.num then
    if 0 ≤ b.num then decide (b.num ^ 2 * a.den < a.num ^ 2 * b.den) else true
  else
    if 0 ≤ b.num then false else decide (a.num ^ 2 * b.den < b.num ^ 2 * a.den)

/-- Model of cosine_similarity, src/server/vector_store.py lines 24-30.
np.dot raises a shape-mismatch ValueError on vectors of different
lengths before the norms are inspected; a zero norm on either side short
circuits to the score zero; otherwise the score is the dot product over
the product of the two norms, held exactly as a Score pair. -/
def cosineSimilarity (v1 v2 : List ℚ) : Except String Score :=
  if v1.length ≠ v2.length then .error "shapes not aligned"
  else if normSq v1 = 0 ∨ normSq v2 = 0 then .ok ⟨0, 1⟩
  else .ok ⟨dotted v1 v2, normSq v1 * normSq v2⟩

/-- One cached embedding record: header, chunk text, embedding vector. -/
structure Rec where
  header : Str
  text : Str
  vector : List ℚ
deriving DecidableEq

/-- The per-request on-disk state the pipeline touches: the stored
document text and the per-document embedding-vector cache file. -/
structure St where
  doc : Str
  vecs : List Rec
deriving DecidableEq

/-- Model of the naive header splitter inside sync_document,
src/server/vector_store.py lines 44-62: any line that starts with a hash
begins a new chunk, the running header starts as Introduction. -/
def naiveChunksAux : List Str → List Str → Str → List (Str × Str)
  | [], cur, hdr => if cur.isEmpty then [] else [(hdr, joinNL cur)]
  | line :: rest, cur, hdr =>
      if startsW line (txt "#") then
        (if cur.isEmpty then [] else [(hdr, joinNL cur)])
          ++ naiveChunksAux rest [line] (trimS (line.dropWhile (· == '#')))
      else naiveChunksAux rest (cur ++ [line]) hdr

/-- Chunk a whole document for the embedding index. -/
def naiveChunks (content : Str) : List (Str × Str) :=
  naiveChunksAux (splitNL content) [] (txt "Introduction")

/-- The record list sync_document builds for a non-empty document: one
embedding request per naive chunk, src/server/vector_store.py lines 64-73. -/
def recsOf (embed : Str → List ℚ) (content : Str) : List Rec :=
  (naiveChunks content).map (fun p => ⟨p.1, p.2, embed p.2⟩)

/-- Model of sync_document, src/server/vector_store.py lines 32-76: an
empty document returns early with nothing written; otherwise the rebuilt
record list replaces the cached vectors file and is returned. -/
def syncDocument (embed : Str → List ℚ) (st : St) : List Rec × St :=
  if st.doc.isEmpty then ([], st)
  else (recsOf embed st.doc, ⟨st.doc, recsOf embed st.doc⟩)

/-- The selection loop of find_best_match, src/server/vector_store.py
lines 89-97: best_score starts at minus one, a candidate replaces the
best exactly when its score is strictly greater, and a similarity error
aborts the whole call. -/
def bestLoop (qv : List ℚ) : List Rec → Score → Option Rec → Except String (Option Rec)
  | [], _, bm => .ok bm
  | r :: rest, bs, bm =>
      match cosineSimilarity qv r.vector with
      | .error e => .error e
      | .ok s => if scoreGt s bs then bestLoop qv rest s (some r) else bestLoop qv rest bs bm

/-- Model of find_best_match, src/server/vector_store.py lines 78-98:
always rebuild first, return nothing on an empty index or an empty probe
embedding, otherwise run the selection loop. -/
def findBestMatch (embed : Str → List ℚ) (query : Str) (st : St) :
    Except String (Option Rec × St) :=
  let p := syncDocument embed st
  if p.1.isEmpty then .ok (none, p.2)
  else
    let qv := embed query
    if qv.isEmpty then .ok (none, p.2)
    else
      match bestLoop qv p.1 ⟨-1, 1⟩ none with
      | .error e => .error e
      | .ok bm => .ok (bm, p.2)

/-! ## Document structure and snapshot (src/server/document_manager.py,
src/server/main.py lines 335-337) -/

/-- One section of the parsed document structure. -/
structure Section where
  title : Str
  level : Nat
  content : Str
deriving DecidableEq

/-- Loop of get_structure, src/server/document_manager.py lines 201-226:
a stripped line beginning with a hash starts a new section whose level is
the length of the first space-separated token and whose title strips the
hashes; the pending section is flushed only when its line list is
non-empty. -/
def getStructureAux : List Str → Str → Nat → List Str → List Section
  | [], t, lv, cl => if cl.isEmpty then [] else [⟨t, lv, joinNL cl⟩]
  | line :: rest, t, lv, cl =>
      let s := trimS line
      if startsW s (txt "#") then
        (if cl.isEmpty then [] else [⟨t, lv, joinNL cl⟩])
          ++ getStructureAux rest (trimS (s.dropWhile (· == '#')))
              (s.takeWhile (· != ' ')).length [line]
      else getStructureAux rest t lv (cl ++ [line])

/-- Model of get_structure, src/server/document_manager.py lines 195-226. -/
def getStructure (doc : Str) : List Section :=
  if doc.isEmpty then [] else getStructureAux (splitNL doc) (txt "Introduction") 0 []

/-- One Python dict assignment: an existing key keeps its position and
takes the new value, a new key is appended. -/
def insertDict (m : List (Str × Str)) (k v : Str) : List (Str × Str) :=
  if m.any (fun p => p.1 == k) then m.map (fun p => if p.1 == k then (k, v) else p)
  else m ++ [(k, v)]

/-- Model of the title-to-content snapshot dict comprehension of
src/server/main.py line 337, with Python dict insertion-order and
last-value-wins semantics. -/
def buildSnapshot (struct : List Section) : List (Str × Str) :=
  struct.foldl (fun m s => insertDict m s.title s.content) []

/-- Exact-key lookup in the snapshot dict. -/
def snapLookup : List (Str × Str) → Str → Option Str
  | [], _ => none
  | (k, v) :: rest, t => if k == t then some v else snapLookup rest t

/-! ## The tiered section resolver (src/server/main.py lines 392-504) -/

/-- One parsed protocol block: Target-Section, Change-Summary and the
already-stripped raw body, src/server/main.py lines 340-342. -/
structure Intent where
  target : Str
  changeSummary : Str
  rawBody : Str
deriving DecidableEq

/-- One resolution result, src/server/main.py lines 499-504. -/
structure Result where
  sectionTitle : Str
  originalText : Str
  newText : Str
  summary : Str
deriving DecidableEq

/-- The sentinel for a structurally decided brand-new section. -/
def newSectionSentinel : Str := txt "(New Section)"

/-- The sentinel for an exhausted semantic search. -/
def noMatchSentinel : Str := txt "(No matching section found. Will be added as new.)"

/-- Header title of the first line of a chunk, src/server/main.py lines
397-400: the first line is stripped, and when it starts with a hash the
title strips the leading hashes and surrounding whitespace. -/
def chunkHeaderTitle (chunk : Str) : Option Str :=
  let fl := trimS (headLine chunk)
  if startsW fl (txt "#") then some (trimS (fl.dropWhile (· == '#'))) else none

/-- Tier-one chunk self-header override, src/server/main.py lines
402-417: a non-empty chunk header title that matches no existing title
case-insensitively and begins with milestone or feature forces a new
section named after the header. -/
def forceNewTitle (snap : List (Str × Str)) (chunk : Str) : Option Str :=
  match chunkHeaderTitle chunk with
  | none => none
  | some h =>
      if h.isEmpty then none
      else if snap.any (fun p => toLowerS p.1 == toLowerS h) then none
      else if startsW (toLowerS h) (txt "milestone") || startsW (toLowerS h) (txt "feature")
      then some h
      else none

/-- Tier-two structural scan, src/server/main.py lines 440-455: iterate
over the snapshot in insertion order, stop at once on a case-insensitive
exact title match, remember a suffix match and keep scanning. -/
def tier2Scan : List (Str × Str) → Str → Option Str → Option Str
  | [], _, best => best
  | (t, _) :: rest, ni, best =>
      if ni == toLowerS t then some t
      else if endsW ni (txt ": " ++ toLowerS t) || endsW ni (txt "-> " ++ toLowerS t) then
        tier2Scan rest ni (some t)
      else tier2Scan rest ni best

/-- Model of the truthiness test on best_structure_match at
src/server/main.py line 457: a scan result that is the empty string is
falsy in Python and is discarded exactly like no match at all, so the
resolver falls through to tiers three and four. -/
def tier2Matched : Option Str → Option Str
  | some t => if t.isEmpty then none else some t
  | none => none

/-- Tier-three explicit-new test on the intent string, src/server/main.py
lines 470-473. -/
def tier3New (target : Str) : Bool :=
  let lt := toLowerS target
  startsW lt (txt "feature:") || startsW lt (txt "milestone:") ||
  startsW lt (txt "feature ") || startsW lt (txt "milestone ")

/-- Model of the per-chunk tiered resolution, src/server/main.py lines
392-504: tier one forces a new section from the chunk header, tier two
resolves a structural title match to its stored content when the matched
title is non-empty (an empty one is falsy and discarded), tier three
forces a new section from an explicit feature or milestone intent, and
tier four asks the embedding index and degrades to the no-match sentinel,
titling the chunk by its own unstripped first-line header when present,
else by the intent. -/
def resolveChunk (snap : List (Str × Str)) (embed : Str → List ℚ)
    (target summary chunk : Str) (st : St) : Except String (Result × St) :=
  match forceNewTitle snap chunk with
  | some t => .ok (⟨t, newSectionSentinel, chunk, summary⟩, st)
  | none =>
      match tier2Matched (tier2Scan snap (toLowerS target) none) with
      | some title => .ok (⟨title, (snapLookup snap title).getD [], chunk, summary⟩, st)
      | none =>
          if tier3New target then .ok (⟨target, newSectionSentinel, chunk, summary⟩, st)
          else
            match findBestMatch embed (target ++ '\n' :: chunk) st with
            | .error e => .error e
            | .ok (none, st1) =>
                let fl := headLine chunk
                let title :=
                  if startsW fl (txt "#") then trimS (fl.dropWhile (· == '#')) else target
                .ok (⟨title, noMatchSentinel, chunk, summary⟩, st1)
            | .ok (some r, st1) => .ok (⟨r.header, r.text, chunk, summary⟩, st1)

/-- Resolve the chunk list of one intent in order, threading the state
and collecting one result per chunk, src/server/main.py lines 392-504. -/
def resolveChunks (snap : List (Str × Str)) (embed : Str → List ℚ)
    (target summary : Str) : List Str → St → Except String (List Result × St)
  | [], st => .ok ([], st)
  | c :: cs, st =>
      match resolveChunk snap embed target summary c st with
      | .error e => .error e
      | .ok (r, st1) =>
          match resolveChunks snap embed target summary cs st1 with
          | .error e => .error e
          | .ok (rs, st2) => .ok (r :: rs, st2)

/-- Process the parsed intents of one batch in order against one fixed
snapshot, src/server/main.py lines 339-509: each intent body is split
hierarchically and every chunk appends exactly one result. -/
def processIntents (snap : List (Str × Str)) (embed : Str → List ℚ) :
    List Intent → St → Except String (List Result × St)
  | [], st => .ok ([], st)
  | i :: is', st =>
      match resolveChunks snap embed i.target i.changeSummary (splitChunks i.rawBody) st with
      | .error e => .error e
      | .ok (rs1, st1) =>
          match processIntents snap embed is' st1 with
          | .error e => .error e
          | .ok (rs2, st2) => .ok (rs1 ++ rs2, st2)

/-- Model of the resolution pass of process_text, src/server/main.py
lines 335-509, after the protocol regex has produced the intent list: the
title-to-content snapshot is built once from the stored document, then
every intent is processed against it. -/
def processText (embed : Str → List ℚ) (intents : List Intent) (st : St) :
    Except String (List Result × St) :=
  processIntents (buildSnapshot (getStructure st.doc)) embed intents st

/-! ## Basic lemmas about the line split and join -/

lemma splitNL_ne_nil (s : Str) : splitNL s ≠ [] := by
  cases s with
  | nil => simp [splitNL]
  | cons c cs =>
      simp only [splitNL]
      rcases h : splitNL cs with _ | ⟨x, xs⟩
      · by_cases hc : c == '\n' <;> simp [hc]
      · by_cases hc : c == '\n' <;> simp [hc]

lemma joinNL_cons_cons (c : Char) (h : Str) (t : List Str) :
    joinNL ((c :: h) :: t) = c :: joinNL (h :: t) := by
  cases t <;> simp [joinNL]

lemma joinNL_splitNL (s : Str) : joinNL (splitNL s) = s := by
  induction s with
  | nil => simp [splitNL, joinNL]
  | cons c cs ih =>
      simp only [splitNL]
      rcases h : splitNL cs with _ | ⟨x, xs⟩
      · exact absurd h (splitNL_ne_nil cs)
      · by_cases hc : c = '\n'
        · subst hc
          simp only [beq_self_eq_true, if_true]
          have hj : joinNL ([] :: x :: xs) = '\n' :: joinNL (x :: xs) := by simp [joinNL]
          rw [hj, ← h, ih]
        · have hc' : (c == '\n') = false := by simpa using hc
          simp only [hc', Bool.false_eq_true, if_false]
          rw [joinNL_cons_cons, ← h, ih]

/-! ## Lemmas about the hierarchical chunk splitter -/

lemma splitChunksAux_noHeader :
    ∀ (rest : List Str) (cur : List Str) (lvl : Option Nat),
      (∀ l ∈ rest, headerLevel l = none) → cur ≠ [] →
      splitChunksAux rest cur lvl = [joinNL (cur ++ rest)] := by
  intro rest
  induction rest with
  | nil =>
      intro cur lvl _ hcur
      simp [splitChunksAux, List.isEmpty_iff, hcur]
  | cons line rest ih =>
      intro cur lvl hnh hcur
      have hline : headerLevel line = none := hnh line (by simp)
      simp only [splitChunksAux, hline]
      rw [ih (cur ++ [line]) lvl (fun l hl => hnh l (by simp [hl])) (by simp)]
      simp

lemma resolveChunk_ok_newText
    (snap : List (Str × Str)) (embed : Str → List ℚ) (t s c : Str) (st : St)
    (r : Result) (st' : St) (h : resolveChunk snap embed t s c st = .ok (r, st')) :
    r.newText = c := by
  unfold resolveChunk at h
  rcases hf : forceNewTitle snap c with _ | ft
  · rw [hf] at h
    rcases h2 : tier2Matched (tier2Scan snap (toLowerS t) none) with _ | t2
    · rw [h2] at h
      by_cases h3 : tier3New t
      · simp [h3] at h
        simp [← h.1]
      · simp [h3] at h
        rcases hb : findBestMatch embed (t ++ '\n' :: c) st with e | ⟨o, st1⟩
        · rw [hb] at h; cases h
        · rw [hb] at h
          rcases o with _ | rr
          · simp at h; simp [← h.1]
          · simp at h; simp [← h.1]
    · rw [h2] at h
      simp at h
      simp [← h.1]
  · rw [hf] at h
    simp at h
    simp [← h.1]

lemma resolveChunks_ok_length
    (snap : List (Str × Str)) (embed : Str → List ℚ) (t s : Str) :
    ∀ (chunks : List Str) (st : St) (res : List Result) (st' : St),
      resolveChunks snap embed t s chunks st = .ok (res, st') →
      res.length = chunks.length := by
  intro chunks
  induction chunks with
  | nil =>
      intro st res st' h
      simp [resolveChunks] at h
      simp [← h.1]
  | cons c cs ih =>
      intro st res st' h
      simp only [resolveChunks] at h
      split at h
      · exact Except.noConfusion h
      · split at h
        · exact Except.noConfusion h
        · rename_i rs st2 heq2
          simp only [Except.ok.injEq, Prod.mk.injEq] at h
          rw [← h.1]
          simp [ih _ rs st2 heq2]

lemma processIntents_ok_length
    (snap : List (Str × Str)) (embed : Str → List ℚ) :
    ∀ (intents : List Intent) (st : St) (res : List Result) (st' : St),
      processIntents snap embed intents st = .ok (res, st') →
      res.length = (intents.map (fun i => (splitChunks i.rawBody).length)).sum := by
  intro intents
  induction intents with
  | nil =>
      intro st res st' h
      simp [processIntents] at h
      simp [← h.1]
  | cons i is' ih =>
      intro st res st' h
      simp only [processIntents] at h
      split at h
      · exact Except.noConfusion h
      · rename_i rs1 st1 heq1
        split at h
        · exact Except.noConfusion h
        · rename_i rs2 st2 heq2
          simp only [Except.ok.injEq, Prod.mk.injEq] at h
          rw [← h.1]
          simp [resolveChunks_ok_length snap embed i.target i.changeSummary _ st rs1 st1 heq1,
            ih st1 rs2 st2 heq2]

/-! ## Lemmas about the tier-two structural scan -/

/-- The exact-equality test of the tier-two scan, as a predicate on one
snapshot entry. -/
def exactHit (ni : Str) (p : Str × Str) : Bool := ni == toLowerS p.1

/-- The suffix test of the tier-two scan, as a predicate on one snapshot
entry. -/
def suffixHit (ni : Str) (p : Str × Str) : Bool :=
  endsW ni (txt ": " ++ toLowerS p.1) || endsW ni (txt "-> " ++ toLowerS p.1)

lemma tier2Scan_exact :
    ∀ (snap : List (Str × Str)) (ni : Str) (best : Option Str) (pr : Str × Str),
      snap.find? (exactHit ni) = some pr → tier2Scan snap ni best = some pr.1 := by
  intro snap
  induction snap with
  | nil => intro ni best pr h; simp at h
  | cons p rest ih =>
      intro ni best pr h
      obtain ⟨t, c⟩ := p
      rw [List.find?_cons] at h
      by_cases he : exactHit ni (t, c)
      · rw [he] at h
        simp at h
        simp only [tier2Scan]
        have : (ni == toLowerS t) = true := he
        rw [this]
        simp [← h]
      · have he' : exactHit ni (t, c) = false := by simpa using he
        rw [he'] at h
        simp at h
        simp only [tier2Scan]
        rw [show (ni == toLowerS t) = false from he']
        simp only [Bool.false_eq_true, if_false]
        by_cases hs : (endsW ni (txt ": " ++ toLowerS t) || endsW ni (txt "-> " ++ toLowerS t)) = true
        · rw [hs]; simp only [if_true]; exact ih ni (some t) pr h
        · simp only [show (endsW ni (txt ": " ++ toLowerS t) || endsW ni (txt "-> " ++ toLowerS t))
              = false from by simpa using hs, Bool.false_eq_true, if_false]
          exact ih ni best pr h

lemma tier2Scan_noExact :
    ∀ (snap : List (Str × Str)) (ni : Str) (best : Option Str),
      (∀ p ∈ snap, exactHit ni p = false) →
      tier2Scan snap ni best =
        (match snap.reverse.find? (suffixHit ni) with
         | some p => some p.1
         | none => best) := by
  intro snap
  induction snap with
  | nil => intro ni best _; simp [tier2Scan]
  | cons p rest ih =>
      intro ni best hne
      obtain ⟨t, c⟩ := p
      have he : exactHit ni (t, c) = false := hne (t, c) (by simp)
      simp only [tier2Scan]
      rw [show (ni == toLowerS t) = false from he]
      simp only [Bool.false_eq_true, if_false]
      have hrev : (rest.reverse ++ [(t, c)]).find? (suffixHit ni)
          = ((rest.reverse.find? (suffixHit ni)).or ((([(t, c)] : List (Str × Str))).find?
              (suffixHit ni))) := List.find?_append ..
      by_cases hs : (endsW ni (txt ": " ++ toLowerS t) || endsW ni (txt "-> " ++ toLowerS t)) = true
      · rw [hs]
        simp only [if_true]
        rw [ih ni (some t) (fun q hq => hne q (by simp [hq]))]
        have hsuf : suffixHit ni (t, c) = true := hs
        simp only [List.reverse_cons, hrev]
        rcases hr : rest.reverse.find? (suffixHit ni) with _ | q <;>
          simp [List.find?, hsuf, Option.or]
      · rw [show (endsW ni (txt ": " ++ toLowerS t) || endsW ni (txt "-> " ++ toLowerS t)) = false
          from by simpa using hs]
        simp only [Bool.false_eq_true, if_false]
        rw [ih ni best (fun q hq => hne q (by simp [hq]))]
        have hsuf : suffixHit ni (t, c) = false := by
          simp only [suffixHit]
          simpa using hs
        simp only [List.reverse_cons, hrev]
        rcases hr : rest.reverse.find? (suffixHit ni) with _ | q <;>
          simp [List.find?, hsuf, Option.or]

lemma tier2Scan_mem :
    ∀ (snap : List (Str × Str)) (ni : Str) (best : Option Str) (t : Str),
      tier2Scan snap ni best = some t → (∃ c, (t, c) ∈ snap) ∨ best = some t := by
  intro snap
  induction snap with
  | nil => intro ni best t h; right; simpa [tier2Scan] using h
  | cons p rest ih =>
      intro ni best t h
      obtain ⟨t0, c0⟩ := p
      simp only [tier2Scan] at h
      by_cases he : (ni == toLowerS t0) = true
      · rw [he] at h
        simp at h
        left; exact ⟨c0, by simp [← h]⟩
      · rw [show (ni == toLowerS t0) = false from by simpa using he] at h
        simp only [Bool.false_eq_true, if_false] at h
        by_cases hs : (endsW ni (txt ": " ++ toLowerS t0) || endsW ni (txt "-> " ++ toLowerS t0)) = true
        · rw [hs] at h
          simp only [if_true] at h
          rcases ih ni (some t0) t h with ⟨c, hc⟩ | hb
          · exact Or.inl ⟨c, by simp [hc]⟩
          · simp at hb
            exact Or.inl ⟨c0, by simp [hb]⟩
        · rw [show (endsW ni (txt ": " ++ toLowerS t0) || endsW ni (txt "-> " ++ toLowerS t0)) = false
            from by simpa using hs] at h
          simp only [Bool.false_eq_true, if_false] at h
          rcases ih ni best t h with ⟨c, hc⟩ | hb
          · exact Or.inl ⟨c, by simp [hc]⟩
          · exact Or.inr hb

/-! ## Lemmas about the snapshot dict -/

lemma snapLookup_map_replace (k v t : Str) :
    ∀ m : List (Str × Str),
      snapLookup (m.map (fun p => if p.1 == k then (k, v) else p)) t =
        (if k == t then (if m.any (fun p => p.1 == k) then some v else none)
         else snapLookup m t) := by
  intro m
  induction m with
  | nil => by_cases hk : (k == t) = true <;> simp [snapLookup, hk]
  | cons p rest ih =>
      obtain ⟨a, b⟩ := p
      simp only [List.map_cons, List.any_cons]
      by_cases hak : a = k
      · subst hak
        simp only [beq_self_eq_true, if_true, Bool.true_or]
        by_cases hat : a = t
        · subst hat
          simp [snapLookup]
        · have h1 : (a == t) = false := by simpa using hat
          simp only [snapLookup, h1, Bool.false_eq_true, if_false]
          rw [ih, h1]
          simp
      · have h1 : (a == k) = false := by simpa using hak
        simp only [h1, Bool.false_eq_true, if_false, Bool.false_or]
        by_cases hat : a = t
        · subst hat
          have h2 : (k == a) = false := by
            simpa using (show ¬ k = a from fun e => hak e.symm)
          simp [snapLookup, h2]
        · have h2 : (a == t) = false := by simpa using hat
          simp only [snapLookup, h2, Bool.false_eq_true, if_false]
          exact ih

lemma snapLookup_append_single (k v t : Str) :
    ∀ m : List (Str × Str),
      snapLookup (m ++ [(k, v)]) t =
        (match snapLookup m t with
         | some w => some w
         | none => if k == t then some v else none) := by
  intro m
  induction m with
  | nil => simp [snapLookup]
  | cons p rest ih =>
      obtain ⟨a, b⟩ := p
      by_cases hat : (a == t) = true
      · simp [snapLookup, hat]
      · have hat' : (a == t) = false := by simpa using hat
        simp only [List.cons_append, snapLookup, hat', Bool.false_eq_true, if_false]
        exact ih

lemma snapLookup_none_of_no_key (t : Str) :
    ∀ m : List (Str × Str), (∀ p ∈ m, (p.1 == t) = false) → snapLookup m t = none := by
  intro m
  induction m with
  | nil => intro _; rfl
  | cons p rest ih =>
      intro h
      obtain ⟨a, b⟩ := p
      have ha : (a == t) = false := h (a, b) (by simp)
      simp only [snapLookup, ha, Bool.false_eq_true, if_false]
      exact ih (fun q hq => h q (by simp [hq]))

lemma insertDict_lookup (m : List (Str × Str)) (k v t : Str) :
    snapLookup (insertDict m k v) t = if k == t then some v else snapLookup m t := by
  unfold insertDict
  by_cases hany : (m.any fun p => p.1 == k) = true
  · rw [hany]
    simp only [if_true]
    rw [snapLookup_map_replace k v t m, hany]
    simp
  · have hany' : (m.any fun p => p.1 == k) = false := by
      revert hany
      cases m.any fun p => p.1 == k <;> simp
    rw [hany']
    simp only [Bool.false_eq_true, if_false]
    rw [snapLookup_append_single k v t m]
    by_cases hk : k = t
    · subst hk
      have hnone : snapLookup m k = none := by
        refine snapLookup_none_of_no_key k m ?_
        intro p hp
        have h3 := List.any_eq_false.mp hany' p hp
        simpa using h3
      simp [hnone]
    · have hk' : (k == t) = false := by simpa using hk
      rcases hm : snapLookup m t with _ | w <;> simp [hm, hk']

lemma snapLookup_foldl_insert (t : Str) :
    ∀ (l : List Section) (acc : List (Str × Str)),
      snapLookup (l.foldl (fun m s => insertDict m s.title s.content) acc) t =
        (match l.reverse.find? (fun s => s.title == t) with
         | some s => some s.content
         | none => snapLookup acc t) := by
  intro l
  induction l with
  | nil => intro acc; simp [List.find?]
  | cons s l' ih =>
      intro acc
      simp only [List.foldl_cons, List.reverse_cons]
      rw [ih (insertDict acc s.title s.content)]
      have happ : (l'.reverse ++ [s]).find? (fun s => s.title == t)
          = ((l'.reverse.find? (fun s => s.title == t)).or
              ((([s] : List Section)).find? (fun s => s.title == t))) := List.find?_append ..
      rw [happ]
      rcases hr : l'.reverse.find? (fun s => s.title == t) with _ | q
      · simp only [hr, Option.none_or]
        rw [insertDict_lookup]
        by_cases hst : (s.title == t) = true
        · simp [List.find?, hst]
        · have hst' : (s.title == t) = false := by simpa using hst
          simp [List.find?, hst']
      · simp [hr, Option.or]

/-- The snapshot dict maps a title to the content of the last section in
document order bearing exactly that title. -/
lemma snapLookup_buildSnapshot (l : List Section) (t : Str) :
    snapLookup (buildSnapshot l) t =
      (match l.reverse.find? (fun s => s.title == t) with
       | some s => some s.content
       | none => none) := by
  unfold buildSnapshot
  rw [snapLookup_foldl_insert t l []]
  rcases hr : l.reverse.find? (fun s => s.title == t) with _ | q <;> simp [snapLookup]

/-! ## State lemmas: which parts of the on-disk state a resolution call
can touch, and that its results never depend on the prior vector cache -/

lemma findBestMatch_state (embed : Str → List ℚ) (q : Str) (st : St) (o : Option Rec)
    (st1 : St) (h : findBestMatch embed q st = .ok (o, st1)) :
    st1.doc = st.doc ∧ (st1.vecs = st.vecs ∨ st1.vecs = recsOf embed st.doc) := by
  unfold findBestMatch syncDocument at h
  by_cases hd : st.doc.isEmpty = true
  · simp only [hd, if_true] at h
    simp at h
    simp [← h.2]
  · have hd' : st.doc.isEmpty = false := by simpa using hd
    simp only [hd', Bool.false_eq_true, if_false] at h
    by_cases hr : (recsOf embed st.doc).isEmpty = true
    · simp only [hr, if_true] at h
      simp at h
      simp [← h.2]
    · have hr' : (recsOf embed st.doc).isEmpty = false := by simpa using hr
      simp only [hr', Bool.false_eq_true, if_false] at h
      by_cases hq : (embed q).isEmpty = true
      · simp only [hq, if_true] at h
        simp at h
        simp [← h.2]
      · have hq' : (embed q).isEmpty = false := by simpa using hq
        simp only [hq', Bool.false_eq_true, if_false] at h
        split at h
        · exact Except.noConfusion h
        · simp at h
          simp [← h.2]

lemma resolveChunk_state (snap : List (Str × Str)) (embed : Str → List ℚ)
    (t s c : Str) (st : St) (r : Result) (st' : St)
    (h : resolveChunk snap embed t s c st = .ok (r, st')) :
    st'.doc = st.doc ∧ (st'.vecs = st.vecs ∨ st'.vecs = recsOf embed st.doc) := by
  unfold resolveChunk at h
  rcases hf : forceNewTitle snap c with _ | ft
  · rw [hf] at h
    rcases h2 : tier2Matched (tier2Scan snap (toLowerS t) none) with _ | t2
    · rw [h2] at h
      by_cases h3 : tier3New t
      · simp [h3] at h
        simp [← h.2]
      · simp [h3] at h
        rcases hb : findBestMatch embed (t ++ '\n' :: c) st with e | ⟨o, st1⟩
        · rw [hb] at h; cases h
        · rw [hb] at h
          have := findBestMatch_state embed (t ++ '\n' :: c) st o st1 hb
          rcases o with _ | rr
          · simp at h
            rw [← h.2]
            exact this
          · simp at h
            rw [← h.2]
            exact this
    · rw [h2] at h
      simp at h
      simp [← h.2]
  · rw [hf] at h
    simp at h
    simp [← h.2]

lemma resolveChunks_doc (snap : List (Str × Str)) (embed : Str → List ℚ) (t s : Str) :
    ∀ (chunks : List Str) (st : St) (res : List Result) (st' : St),
      resolveChunks snap embed t s chunks st = .ok (res, st') → st'.doc = st.doc := by
  intro chunks
  induction chunks with
  | nil =>
      intro st res st' h
      simp [resolveChunks] at h
      simp [← h.2]
  | cons c cs ih =>
      intro st res st' h
      simp only [resolveChunks] at h
      split at h
      · exact Except.noConfusion h
      · rename_i r st1 heq1
        split at h
        · exact Except.noConfusion h
        · rename_i rs st2 heq2
          simp only [Except.ok.injEq, Prod.mk.injEq] at h
          rw [← h.2]
          rw [ih _ rs st2 heq2]
          exact (resolveChunk_state snap embed t s c st r st1 heq1).1

lemma processIntents_doc (snap : List (Str × Str)) (embed : Str → List ℚ) :
    ∀ (intents : List Intent) (st : St) (res : List Result) (st' : St),
      processIntents snap embed intents st = .ok (res, st') → st'.doc = st.doc := by
  intro intents
  induction intents with
  | nil =>
      intro st res st' h
      simp [processIntents] at h
      simp [← h.2]
  | cons i is' ih =>
      intro st res st' h
      simp only [processIntents] at h
      split at h
      · exact Except.noConfusion h
      · rename_i rs1 st1 heq1
        split at h
        · exact Except.noConfusion h
        · rename_i rs2 st2 heq2
          simp only [Except.ok.injEq, Prod.mk.injEq] at h
          rw [← h.2]
          rw [ih st1 rs2 st2 heq2]
          exact resolveChunks_doc snap embed i.target i.changeSummary _ st rs1 st1 heq1

lemma findBestMatch_of_empty_doc (embed : Str → List ℚ) (q : Str) (st : St)
    (hd : st.doc.isEmpty = true) : findBestMatch embed q st = .ok (none, st) := by
  simp [findBestMatch, syncDocument, hd]

lemma findBestMatch_indep (embed : Str → List ℚ) (q : Str) (d : Str) (u w : List Rec)
    (hd : d.isEmpty = false) :
    findBestMatch embed q ⟨d, u⟩ = findBestMatch embed q ⟨d, w⟩ := by
  simp [findBestMatch, syncDocument, hd]

lemma resolveChunk_indep (snap : List (Str × Str)) (embed : Str → List ℚ)
    (t s c : Str) (d : Str) (u w : List Rec) :
    Except.map Prod.fst (resolveChunk snap embed t s c ⟨d, u⟩)
      = Except.map Prod.fst (resolveChunk snap embed t s c ⟨d, w⟩) := by
  unfold resolveChunk
  rcases hf : forceNewTitle snap c with _ | ft
  · rcases h2 : tier2Matched (tier2Scan snap (toLowerS t) none) with _ | t2
    · by_cases h3 : tier3New t
      · simp [h3, Except.map]
      · simp only [h3, Bool.false_eq_true, if_false]
        by_cases hd : d.isEmpty = true
        · rw [findBestMatch_of_empty_doc embed (t ++ '\n' :: c) ⟨d, u⟩ hd,
            findBestMatch_of_empty_doc embed (t ++ '\n' :: c) ⟨d, w⟩ hd]
          simp [Except.map]
        · rw [findBestMatch_indep embed (t ++ '\n' :: c) d u w (by simpa using hd)]
    · simp [Except.map]
  · simp [Except.map]

lemma resolveChunks_indep (snap : List (Str × Str)) (embed : Str → List ℚ) (t s : Str) :
    ∀ (chunks : List Str) (d : Str) (u w : List Rec),
      Except.map Prod.fst (resolveChunks snap embed t s chunks ⟨d, u⟩)
        = Except.map Prod.fst (resolveChunks snap embed t s chunks ⟨d, w⟩) := by
  intro chunks
  induction chunks with
  | nil => intro d u w; simp [resolveChunks, Except.map]
  | cons c cs ih =>
      intro d u w
      simp only [resolveChunks]
      have hone := resolveChunk_indep snap embed t s c d u w
      rcases h1 : resolveChunk snap embed t s c ⟨d, u⟩ with e | ⟨r, st1⟩
      · rw [h1] at hone
        rcases h2 : resolveChunk snap embed t s c ⟨d, w⟩ with e2 | p2
        · rw [h2] at hone
          simp [Except.map] at hone
          simp [Except.map, hone]
        · rw [h2] at hone
          simp [Except.map] at hone
      · rw [h1] at hone
        rcases h2 : resolveChunk snap embed t s c ⟨d, w⟩ with e2 | ⟨r2, st2⟩
        · rw [h2] at hone
          simp [Except.map] at hone
        · rw [h2] at hone
          simp [Except.map] at hone
          obtain ⟨hd1, _⟩ := resolveChunk_state snap embed t s c ⟨d, u⟩ r st1 h1
          obtain ⟨hd2, _⟩ := resolveChunk_state snap embed t s c ⟨d, w⟩ r2 st2 h2
          obtain ⟨d1, v1⟩ := st1
          obtain ⟨d2, v2⟩ := st2
          simp at hd1 hd2
          have hd1x : d = d1 := hd1.symm
          subst hd1x
          have hd2x : d = d2 := hd2.symm
          subst hd2x
          have hrec := ih d v1 v2
          rcases h3 : resolveChunks snap embed t s cs ⟨d, v1⟩ with e3 | ⟨rs3, st3⟩
          · rw [h3] at hrec
            rcases h4 : resolveChunks snap embed t s cs ⟨d, v2⟩ with e4 | p4
            · rw [h4] at hrec
              simp [Except.map] at hrec
              simp [Except.map, h3, h4, hrec]
            · rw [h4] at hrec
              simp [Except.map] at hrec
          · rw [h3] at hrec
            rcases h4 : resolveChunks snap embed t s cs ⟨d, v2⟩ with e4 | ⟨rs4, st4⟩
            · rw [h4] at hrec
              simp [Except.map] at hrec
            · rw [h4] at hrec
              simp [Except.map] at hrec
              simp [Except.map, h3, h4, hone, hrec]

lemma processIntents_indep (snap : List (Str × Str)) (embed : Str → List ℚ) :
    ∀ (intents : List Intent) (d : Str) (u w : List Rec),
      Except.map Prod.fst (processIntents snap embed intents ⟨d, u⟩)
        = Except.map Prod.fst (processIntents snap embed intents ⟨d, w⟩) := by
  intro intents
  induction intents with
  | nil => intro d u w; simp [processIntents, Except.map]
  | cons i is' ih =>
      intro d u w
      simp only [processIntents]
      have hone := resolveChunks_indep snap embed i.target i.changeSummary
        (splitChunks i.rawBody) d u w
      rcases h1 : resolveChunks snap embed i.target i.changeSummary (splitChunks i.rawBody) ⟨d, u⟩
        with e | ⟨rs1, st1⟩
      · rw [h1] at hone
        rcases h2 : resolveChunks snap embed i.target i.changeSummary (splitChunks i.rawBody) ⟨d, w⟩
          with e2 | p2
        · rw [h2] at hone
          simp [Except.map] at hone
          simp [Except.map, hone]
        · rw [h2] at hone
          simp [Except.map] at hone
      · rw [h1] at hone
        rcases h2 : resolveChunks snap embed i.target i.changeSummary (splitChunks i.rawBody) ⟨d, w⟩
          with e2 | ⟨rs2, st2⟩
        · rw [h2] at hone
          simp [Except.map] at hone
        · rw [h2] at hone
          simp [Except.map] at hone
          have hd1 := resolveChunks_doc snap embed i.target i.changeSummary _ _ rs1 st1 h1
          have hd2 := resolveChunks_doc snap embed i.target i.changeSummary _ _ rs2 st2 h2
          obtain ⟨d1, v1⟩ := st1
          obtain ⟨d2, v2⟩ := st2
          simp at hd1 hd2
          have hd1x : d = d1 := hd1.symm
          subst hd1x
          have hd2x : d = d2 := hd2.symm
          subst hd2x
          have hrec := ih d v1 v2
          rcases h3 : processIntents snap embed is' ⟨d, v1⟩ with e3 | ⟨rs3, st3⟩
          · rw [h3] at hrec
            rcases h4 : processIntents snap embed is' ⟨d, v2⟩ with e4 | p4
            · rw [h4] at hrec
              simp [Except.map] at hrec
              simp [Except.map, h3, h4, hrec]
            · rw [h4] at hrec
              simp [Except.map] at hrec
          · rw [h3] at hrec
            rcases h4 : processIntents snap embed is' ⟨d, v2⟩ with e4 | ⟨rs4, st4⟩
            · rw [h4] at hrec
              simp [Except.map] at hrec
            · rw [h4] at hrec
              simp [Except.map] at hrec
              simp [Except.map, h3, h4, hone, hrec]

/-! ## Lemmas about the similarity score order and the selection loop -/

/-- Order key of a score pair: the sign of the value times the square of
the value; strictly monotone in the real value num over root den. -/
def key (s : Score) : ℚ :=
  if 0 ≤ s.num then s.num ^ 2 / s.den else -(s.num ^ 2 / s.den)

lemma scoreGt_iff (a b : Score) (ha : 0 < a.den) (hb : 0 < b.den) :
    scoreGt a b = true ↔ key b < key a := by
  unfold scoreGt key
  by_cases hA : 0 ≤ a.num
  · by_cases hB : 0 ≤ b.num
    · rw [if_pos hA, if_pos hB, if_pos hA, if_pos hB, decide_eq_true_eq,
        div_lt_div_iff₀ hb ha]
    · rw [if_pos hA, if_neg hB, if_pos hA, if_neg hB]
      have hblt : b.num < 0 := lt_of_not_le hB
      have hb2 : 0 < b.num ^ 2 := by nlinarith
      constructor
      · intro _
        have h1 : 0 < b.num ^ 2 / b.den := div_pos hb2 hb
        have h2 : 0 ≤ a.num ^ 2 / a.den := div_nonneg (by positivity) (le_of_lt ha)
        linarith
      · intro _
        rfl
  · by_cases hB : 0 ≤ b.num
    · rw [if_neg hA, if_pos hB, if_neg hA, if_pos hB]
      have halt : a.num < 0 := lt_of_not_le hA
      have ha2 : 0 < a.num ^ 2 := by nlinarith
      constructor
      · intro h
        exact absurd h (by simp)
      · intro h
        exfalso
        have h1 : 0 < a.num ^ 2 / a.den := div_pos ha2 ha
        have h2 : 0 ≤ b.num ^ 2 / b.den := div_nonneg (by positivity) (le_of_lt hb)
        linarith
    · rw [if_neg hA, if_neg hB, if_neg hA, if_neg hB, decide_eq_true_eq,
        neg_lt_neg_iff, div_lt_div_iff₀ ha hb]

lemma scoreGt_irrefl (a : Score) : scoreGt a a = false := by
  unfold scoreGt
  by_cases hA : 0 ≤ a.num <;> simp [hA]

lemma normSq_nonneg (v : List ℚ) : 0 ≤ normSq v := by
  induction v with
  | nil => simp [normSq]
  | cons x xs ih =>
      simp only [normSq, List.map_cons, List.sum_cons] at ih ⊢
      nlinarith [mul_self_nonneg x]

lemma cosineSimilarity_den_pos (v1 v2 : List ℚ) (s : Score)
    (h : cosineSimilarity v1 v2 = .ok s) : 0 < s.den := by
  unfold cosineSimilarity at h
  by_cases hl : v1.length ≠ v2.length
  · simp [hl] at h
  · simp only [hl, if_false] at h
    by_cases hz : normSq v1 = 0 ∨ normSq v2 = 0
    · simp only [hz, if_true] at h
      simp at h
      rw [← h]
      norm_num
    · simp only [hz, if_false] at h
      simp at h
      rw [← h]
      push_neg at hz
      have h1 : 0 < normSq v1 := lt_of_le_of_ne (normSq_nonneg v1) (Ne.symm hz.1)
      have h2 : 0 < normSq v2 := lt_of_le_of_ne (normSq_nonneg v2) (Ne.symm hz.2)
      exact mul_pos h1 h2

lemma bestLoop_spec (qv : List ℚ) :
    ∀ (recs : List Rec) (bs : Score) (bm : Option Rec) (res : Option Rec),
      0 < bs.den →
      (∀ b, bm = some b → cosineSimilarity qv b.vector = .ok bs) →
      bestLoop qv recs bs bm = .ok res →
      ∀ r, res = some r →
        ∃ sr, cosineSimilarity qv r.vector = .ok sr ∧ 0 < sr.den ∧
          scoreGt bs sr = false ∧
          ∀ item ∈ recs, ∃ si, cosineSimilarity qv item.vector = .ok si ∧
            scoreGt si sr = false := by
  intro recs
  induction recs with
  | nil =>
      intro bs bm res hden hbm h r hr
      simp [bestLoop] at h
      subst h
      subst hr
      exact ⟨bs, hbm r rfl, hden, scoreGt_irrefl bs, by simp⟩
  | cons item rest ih =>
      intro bs bm res hden hbm h r hr
      simp only [bestLoop] at h
      split at h
      · exact Except.noConfusion h
      · rename_i s hc
        have hsden : 0 < s.den := cosineSimilarity_den_pos qv item.vector s hc
        by_cases hsw : scoreGt s bs = true
        · rw [if_pos hsw] at h
          obtain ⟨sr, hsr, hsrden, hbs', hall⟩ :=
            ih s (some item) res hsden
              (fun b hb => by rw [← (Option.some.injEq ..).mp hb]; exact hc) h r hr
          refine ⟨sr, hsr, hsrden, ?_, ?_⟩
          · have h1 : key bs < key s := (scoreGt_iff s bs hsden hden).mp hsw
            have h2 : ¬ key sr < key s := fun hlt =>
              (by simp [(scoreGt_iff s sr hsden hsrden).mpr hlt] at hbs' : False)
            have h3 : ¬ key sr < key bs := fun hlt => h2 (lt_trans hlt h1)
            cases hx : scoreGt bs sr
            · rfl
            · exact absurd ((scoreGt_iff bs sr hden hsrden).mp hx) h3
          · intro x hx
            rcases List.mem_cons.mp hx with hx | hx
            · subst hx
              exact ⟨s, hc, hbs'⟩
            · exact hall x hx
        · rw [if_neg hsw] at h
          have hsw' : scoreGt s bs = false := by simpa using hsw
          obtain ⟨sr, hsr, hsrden, hbs', hall⟩ := ih bs bm res hden hbm h r hr
          refine ⟨sr, hsr, hsrden, hbs', ?_⟩
          intro x hx
          rcases List.mem_cons.mp hx with hx | hx
          · subst hx
            refine ⟨s, hc, ?_⟩
            have h1 : ¬ key bs < key s := fun hlt =>
              (by simp [(scoreGt_iff s bs hsden hden).mpr hlt] at hsw' : False)
            have h2 : ¬ key sr < key bs := fun hlt =>
              (by simp [(scoreGt_iff bs sr hden hsrden).mpr hlt] at hbs' : False)
            have h3 : ¬ key sr < key s := fun hlt => by
              rcases lt_or_le (key sr) (key bs) with hlt2 | hle2
              · exact h2 hlt2
              · exact h1 (lt_of_le_of_lt hle2 hlt)
            cases hx2 : scoreGt s sr
            · rfl
            · exact absurd ((scoreGt_iff s sr hsden hsrden).mp hx2) h3
          · exact hall x hx

/-! ## Helper lemmas for the find-best-match contract -/

lemma findBestMatch_empty_index (embed : Str → List ℚ) (q : Str) (st : St)
    (h : (syncDocument embed st).1 = []) :
    findBestMatch embed q st = .ok (none, (syncDocument embed st).2) := by
  unfold findBestMatch
  simp [h]

lemma findBestMatch_empty_probe (embed : Str → List ℚ) (q : Str) (st : St)
    (h : embed q = []) :
    ∃ st1, findBestMatch embed q st = .ok (none, st1) := by
  refine ⟨(syncDocument embed st).2, ?_⟩
  unfold findBestMatch
  by_cases hd : (syncDocument embed st).1.isEmpty = true
  · simp [hd]
  · have hd' : (syncDocument embed st).1.isEmpty = false := by simpa using hd
    simp [hd', h]

lemma cosineSimilarity_zero_norm (v1 v2 : List ℚ) (hl : v1.length = v2.length)
    (hz : normSq v1 = 0 ∨ normSq v2 = 0) :
    cosineSimilarity v1 v2 = .ok ⟨0, 1⟩ := by
  unfold cosineSimilarity
  simp [hl, hz]

lemma cosineSimilarity_shape_error (v1 v2 : List ℚ) (hl : v1.length ≠ v2.length) :
    cosineSimilarity v1 v2 = .error "shapes not aligned" := by
  unfold cosineSimilarity
  simp [hl]

lemma findBestMatch_argmax (embed : Str → List ℚ) (q : Str) (st : St) (r : Rec) (st1 : St)
    (h : findBestMatch embed q st = .ok (some r, st1)) :
    ∃ sr, cosineSimilarity (embed q) r.vector = .ok sr ∧
      ∀ item ∈ (syncDocument embed st).1,
        ∃ si, cosineSimilarity (embed q) item.vector = .ok si ∧ scoreGt si sr = false := by
  unfold findBestMatch at h
  by_cases hd : (syncDocument embed st).1.isEmpty = true
  · simp [hd] at h
  · have hd' : (syncDocument embed st).1.isEmpty = false := by simpa using hd
    simp only [hd', Bool.false_eq_true, if_false] at h
    by_cases hq : (embed q).isEmpty = true
    · simp [hq] at h
    · have hq' : (embed q).isEmpty = false := by simpa using hq
      simp only [hq', Bool.false_eq_true, if_false] at h
      split at h
      · exact Except.noConfusion h
      · rename_i bm hb
        simp only [Except.ok.injEq, Prod.mk.injEq] at h
        obtain ⟨sr, hsr, _, _, hall⟩ :=
          bestLoop_spec (embed q) (syncDocument embed st).1 ⟨-1, 1⟩ none bm
            (by norm_num) (fun b hb' => nomatch hb') hb r h.1
        exact ⟨sr, hsr, hall⟩

/-! ## The claims -/

/-- C1: tier-one chunk self-header override. For every chunk whose
stripped first line is a header whose title matches no snapshot title
case-insensitively and begins with milestone or feature
case-insensitively, the resolution result carries that header title as
the section title and the New Section sentinel as the original text, for
every value of the target path (including one naming an existing
section), with the state untouched and no embedding call observable. -/
theorem tier1_self_header_override (snap : List (Str × Str)) (embed : Str → List ℚ)
    (target summary chunk : Str) (st : St) (h : Str)
    (hh : chunkHeaderTitle chunk = some h)
    (hex : (snap.any fun p => toLowerS p.1 == toLowerS h) = false)
    (hmf : (startsW (toLowerS h) (txt "milestone")
              || startsW (toLowerS h) (txt "feature")) = true) :
    resolveChunk snap embed target summary chunk st
      = .ok (⟨h, newSectionSentinel, chunk, summary⟩, st) := by
  have hne : h ≠ [] := by
    intro e
    subst e
    exact absurd hmf (by decide)
  have hemp : h.isEmpty = false := by
    rcases h with _ | ⟨c, cs⟩
    · exact absurd rfl hne
    · rfl
  have hf : forceNewTitle snap chunk = some h := by
    unfold forceNewTitle
    rw [hh]
    simp [hemp, hex, hmf]
  unfold resolveChunk
  rw [hf]

/-- Witness for C1 at a concrete input whose target path names an
existing section. -/
theorem tier1_self_header_override_witness :
    resolveChunk [(txt "Roadmap", txt "## Roadmap
stuff")] (fun _ => []) (txt "Roadmap")
      (txt "s") (txt "### Milestone 3
content") ⟨[], []⟩
      = .ok (⟨txt "Milestone 3", newSectionSentinel, txt "### Milestone 3
content", txt "s"⟩,
             ⟨[], []⟩) :=
  tier1_self_header_override _ _ _ _ _ _ (txt "Milestone 3") (by decide) (by decide) (by decide)

/-- C9: idempotence of hierarchical chunk splitting. Any text all of
whose lines after the first are not header lines splits into exactly one
chunk equal to the text itself. -/
theorem chunk_split_idempotent (raw : Str)
    (hnh : ∀ l ∈ (splitNL raw).tail, headerLevel l = none) :
    splitChunks raw = [raw] := by
  rcases hsp : splitNL raw with _ | ⟨l0, tl⟩
  · exact absurd hsp (splitNL_ne_nil raw)
  · have htl : ∀ l ∈ tl, headerLevel l = none := by
      intro l hl
      refine hnh l ?_
      rw [hsp]
      exact hl
    have hjoin : joinNL (l0 :: tl) = raw := by
      rw [← hsp]
      exact joinNL_splitNL raw
    unfold splitChunks
    rw [hsp]
    have haux : ∀ lvl : Option Nat, splitChunksAux tl ([] ++ [l0]) lvl = [raw] := by
      intro lvl
      rw [splitChunksAux_noHeader tl ([] ++ [l0]) lvl htl (by simp)]
      simp [hjoin]
    have hcs : splitChunksAux (l0 :: tl) [] none = [raw] := by
      simp only [splitChunksAux]
      rcases hh : headerLevel l0 with _ | L
      · exact haux none
      · simp only [List.isEmpty_nil, Bool.not_true, Bool.false_and, Bool.false_eq_true, if_false]
        exact haux (some L)
    rw [hcs]
    simp

/-- Witness for C9 at a concrete header-led chunk text. -/
theorem chunk_split_idempotent_witness :
    splitChunks (txt "### A
body text") = [txt "### A
body text"] :=
  chunk_split_idempotent (txt "### A
body text") (by decide)

/-- C8: result-count conservation. Whenever the resolution pass over a
batch of parsed intents completes, the number of resolution results
equals the sum over all intents of the number of chunks hierarchical
splitting produced, so every chunk yields exactly one result and none is
dropped. -/
theorem result_count_conservation (snap : List (Str × Str)) (embed : Str → List ℚ)
    (intents : List Intent) (st : St) (res : List Result) (st' : St)
    (h : processIntents snap embed intents st = .ok (res, st')) :
    res.length = (intents.map fun i => (splitChunks i.rawBody).length).sum :=
  processIntents_ok_length snap embed intents st res st' h

/-- Witness for C8 on a two-chunk batch from the specification scenario. -/
theorem result_count_conservation_witness :
    ([⟨txt "Feature A", newSectionSentinel, txt "### Feature A\nDescription A.\n", txt "s"⟩,
      ⟨txt "Feature B", newSectionSentinel, txt "### Feature B\nDescription B.", txt "s"⟩]
        : List Result).length
      = ([(⟨txt "Features", txt "s",
            txt "### Feature A\nDescription A.\n\n### Feature B\nDescription B."⟩ : Intent)].map
          fun i => (splitChunks i.rawBody).length).sum :=
  result_count_conservation [(txt "Features", txt "## Features")] (fun _ => [])
    [⟨txt "Features", txt "s",
      txt "### Feature A\nDescription A.\n\n### Feature B\nDescription B."⟩]
    ⟨txt "# Alpha\nbody", []⟩ _ ⟨txt "# Alpha\nbody", []⟩ (by decide)

/-- The snapshot lookup as an Option map over the last matching section. -/
lemma snapLookup_buildSnapshot_map (l : List Section) (t : Str) :
    snapLookup (buildSnapshot l) t
      = (l.reverse.find? (fun s => s.title == t)).map (fun s => s.content) := by
  rw [snapLookup_buildSnapshot]
  rcases hr : l.reverse.find? (fun s => s.title == t) with _ | q <;> simp [hr]

/-- C4: tier-two structural match. Scanning stops on the first
case-insensitive exact title hit; a suffix hit (intent ending in colon
or arrow followed by the title) is retained while scanning continues, so
the last suffix hit is used only when no exact hit exists anywhere, and
an exact hit is chosen whenever both kinds exist; concretely, with the
existing title Integration and the intent Context, Aim and Integration
colon Integration, resolution returns Integration with its stored
content. -/
theorem tier2_exact_beats_suffix :
    (∀ (snap : List (Str × Str)) (ni : Str) (best : Option Str) (pr : Str × Str),
        snap.find? (exactHit ni) = some pr → tier2Scan snap ni best = some pr.1) ∧
    (∀ (snap : List (Str × Str)) (ni : Str) (best : Option Str),
        (∀ p ∈ snap, exactHit ni p = false) →
        tier2Scan snap ni best =
          (match snap.reverse.find? (suffixHit ni) with
           | some p => some p.1
           | none => best)) ∧
    resolveChunk [(txt "Integration", txt "### Integration\nReal stored content.")]
        (fun _ => []) (txt "Context, Aim & Integration: Integration") (txt "s")
        (txt "Some text") ⟨[], []⟩
      = .ok (⟨txt "Integration", txt "### Integration\nReal stored content.",
              txt "Some text", txt "s"⟩, ⟨[], []⟩) :=
  ⟨tier2Scan_exact, tier2Scan_noExact, by decide⟩

/-- Witness for C4: an early suffix hit is overtaken by a later exact
hit, and a lone suffix hit resolves after the scan finishes. -/
theorem tier2_exact_beats_suffix_witness :
    tier2Scan [(txt "Integration", txt "a"), (txt "Context: Integration", txt "b")]
        (txt "context: integration") none = some (txt "Context: Integration") ∧
    tier2Scan [(txt "Integration", txt "a")]
        (txt "context, aim & integration: integration") none = some (txt "Integration") :=
  ⟨tier2_exact_beats_suffix.1 _ _ none (txt "Context: Integration", txt "b") (by decide),
   (tier2_exact_beats_suffix.2.1 [(txt "Integration", txt "a")] _ none (by decide)).trans
     (by decide)⟩

/-- C10: duplicate-title collapse keeps the last occurrence. The
snapshot dict maps a duplicated title to the content of the last section
in document order bearing exactly that title; every tier-two structural
match the resolver commits — a scan hit surviving the truthiness test of
src/server/main.py line 457, which discards an empty matched title —
hands that content to the result; and case-variant duplicates stay
distinct keys with the first encountered winning an exact match. -/
theorem duplicate_title_last_wins :
    (∀ (l : List Section) (t : Str),
        snapLookup (buildSnapshot l) t
          = (l.reverse.find? (fun s => s.title == t)).map (fun s => s.content)) ∧
    (∀ (struct : List Section) (embed : Str → List ℚ)
        (target summary chunk : Str) (st : St) (t : Str),
        forceNewTitle (buildSnapshot struct) chunk = none →
        tier2Matched (tier2Scan (buildSnapshot struct) (toLowerS target) none) = some t →
        resolveChunk (buildSnapshot struct) embed target summary chunk st
          = .ok (⟨t, (((struct.reverse.find? (fun s => s.title == t)).map
                        (fun s => s.content)).getD []), chunk, summary⟩, st)) ∧
    buildSnapshot [⟨txt "Dup", 1, txt "c1"⟩, ⟨txt "dup", 2, txt "c2"⟩, ⟨txt "Dup", 3, txt "c3"⟩]
      = [(txt "Dup", txt "c3"), (txt "dup", txt "c2")] ∧
    tier2Scan (buildSnapshot
        [⟨txt "Dup", 1, txt "c1"⟩, ⟨txt "dup", 2, txt "c2"⟩, ⟨txt "Dup", 3, txt "c3"⟩])
        (txt "dup") none = some (txt "Dup") := by
  refine ⟨snapLookup_buildSnapshot_map, ?_, by decide, by decide⟩
  intro struct embed target summary chunk st t hf ht2
  have hstep : resolveChunk (buildSnapshot struct) embed target summary chunk st
      = .ok (⟨t, (snapLookup (buildSnapshot struct) t).getD [], chunk, summary⟩, st) := by
    unfold resolveChunk
    rw [hf, ht2]
  rw [hstep, snapLookup_buildSnapshot_map]

/-- Witness for C10 at a structure with an exact duplicate and a
case-variant duplicate of the same title. -/
theorem duplicate_title_last_wins_witness :
    resolveChunk (buildSnapshot
        [⟨txt "Dup", 1, txt "c1"⟩, ⟨txt "dup", 2, txt "c2"⟩, ⟨txt "Dup", 3, txt "c3"⟩])
        (fun _ => []) (txt "Dup") (txt "s") (txt "body") ⟨[], []⟩
      = .ok (⟨txt "Dup", txt "c3", txt "body", txt "s"⟩, ⟨[], []⟩) :=
  (duplicate_title_last_wins.2.1
      [⟨txt "Dup", 1, txt "c1"⟩, ⟨txt "dup", 2, txt "c2"⟩, ⟨txt "Dup", 3, txt "c3"⟩]
      (fun _ => []) (txt "Dup") (txt "s") (txt "body") ⟨[], []⟩ (txt "Dup")
      (by decide) (by decide)).trans (by decide)

/-- C5: tier-three explicit-new intent. With no tier-one override and no
tier-two structural match, a target path beginning with feature or
milestone (with colon or blank) forces the result to use the target path
verbatim with the New Section sentinel, leaving the state untouched for
every embedding provider; concretely, three sibling chunks under the
intent Feature colon World Engine all resolve to that new section title
within one pass. -/
theorem tier3_explicit_new :
    (∀ (snap : List (Str × Str)) (embed : Str → List ℚ)
        (target summary chunk : Str) (st : St),
        forceNewTitle snap chunk = none →
        tier2Scan snap (toLowerS target) none = none →
        tier3New target = true →
        resolveChunk snap embed target summary chunk st
          = .ok (⟨target, newSectionSentinel, chunk, summary⟩, st)) ∧
    processIntents [(txt "Features", txt "## Features"), (txt "Roadmap", txt "## Roadmap")]
        (fun _ => [])
        [⟨txt "Feature: World Engine", txt "s",
          txt "#### Context...\nctx\n#### Technical Requirements\ntr\n#### Constraints\ncon"⟩]
        ⟨txt "# Alpha\nbody", []⟩
      = .ok ([⟨txt "Feature: World Engine", newSectionSentinel, txt "#### Context...\nctx", txt "s"⟩,
              ⟨txt "Feature: World Engine", newSectionSentinel,
                txt "#### Technical Requirements\ntr", txt "s"⟩,
              ⟨txt "Feature: World Engine", newSectionSentinel, txt "#### Constraints\ncon", txt "s"⟩],
             ⟨txt "# Alpha\nbody", []⟩) := by
  refine ⟨?_, by decide⟩
  intro snap embed target summary chunk st hf ht2 h3
  have hm : tier2Matched (tier2Scan snap (toLowerS target) none) = none := by
    rw [ht2]
    rfl
  unfold resolveChunk
  rw [hf, hm, if_pos h3]

/-- Witness for C5 applying the tier-three rule at one concrete chunk. -/
theorem tier3_explicit_new_witness :
    resolveChunk [(txt "Features", txt "## Features"), (txt "Roadmap", txt "## Roadmap")]
        (fun _ => []) (txt "Feature: World Engine") (txt "s") (txt "#### Context...\nctx")
        ⟨txt "# Alpha\nbody", []⟩
      = .ok (⟨txt "Feature: World Engine", newSectionSentinel, txt "#### Context...\nctx", txt "s"⟩,
             ⟨txt "# Alpha\nbody", []⟩) :=
  tier3_explicit_new.1 _ _ _ _ _ _ (by decide) (by decide) (by decide)

/-- C6: tier-four graceful degradation. Whenever the semantic query
reports no match, the chunk still resolves without raising, carrying the
no-match sentinel and titled by the chunk first-line header when the raw
first line starts with a hash, else by the target path; and an empty
probe embedding always makes the query report no match rather than
raising. -/
theorem tier4_graceful_degradation :
    (∀ (snap : List (Str × Str)) (embed : Str → List ℚ)
        (target summary chunk : Str) (st st1 : St),
        forceNewTitle snap chunk = none →
        tier2Scan snap (toLowerS target) none = none →
        tier3New target = false →
        findBestMatch embed (target ++ '\n' :: chunk) st = .ok (none, st1) →
        resolveChunk snap embed target summary chunk st
          = .ok (⟨(if startsW (headLine chunk) (txt "#")
                     then trimS ((headLine chunk).dropWhile (· == '#')) else target),
                 noMatchSentinel, chunk, summary⟩, st1)) ∧
    (∀ (embed : Str → List ℚ) (q : Str) (st : St),
        embed q = [] → ∃ st1, findBestMatch embed q st = .ok (none, st1)) := by
  refine ⟨?_, findBestMatch_empty_probe⟩
  intro snap embed target summary chunk st st1 hf ht2 h3 hb
  have hm : tier2Matched (tier2Scan snap (toLowerS target) none) = none := by
    rw [ht2]
    rfl
  unfold resolveChunk
  rw [hf, hm, if_neg (by simp [h3]), hb]

/-- Witness for C6: the embedding provider returns the empty vector for
every text, and the chunk resolves to the target path with the no-match
sentinel while the rebuilt cache is left behind. -/
theorem tier4_graceful_degradation_witness :
    resolveChunk [(txt "Alpha", txt "# Alpha\nbody")] (fun _ => []) (txt "Beta")
        (txt "sum") (txt "hello") ⟨txt "# Alpha\nbody", []⟩
      = .ok (⟨txt "Beta", noMatchSentinel, txt "hello", txt "sum"⟩,
             ⟨txt "# Alpha\nbody", [⟨txt "Alpha", txt "# Alpha\nbody", []⟩]⟩) :=
  (tier4_graceful_degradation.1 [(txt "Alpha", txt "# Alpha\nbody")] (fun _ => [])
      (txt "Beta") (txt "sum") (txt "hello") ⟨txt "# Alpha\nbody", []⟩
      ⟨txt "# Alpha\nbody", [⟨txt "Alpha", txt "# Alpha\nbody", []⟩]⟩
      (by decide) (by decide) (by decide) (by decide)).trans (by decide)

/-- C2 counterexample: with a non-empty probe embedding and an empty
vector on every candidate record, find_best_match does not return
nothing — the shape-mismatch error of the dot product propagates out,
refuting the claim that these cases return None without any exception. -/
theorem query_totality_counterexample :
    findBestMatch (fun s => if s == txt "Q" then [(1 : ℚ)] else []) (txt "Q")
        ⟨txt "# A\nx", []⟩ = .error "shapes not aligned" := by
  decide

/-- C2 amended: find_best_match returns nothing on an empty index and on
an empty probe embedding; cosine similarity of equal-length vectors with
a zero norm on either side is the score zero without any division; but a
candidate vector whose length differs from the probe (such as the empty
vector under a non-empty probe) raises the shape error of the dot
product; and a returned record is one no candidate strictly beats, so a
zero-norm candidate, scoring zero, is never selected over a
strictly-better one. -/
theorem query_totality_amended :
    (∀ (embed : Str → List ℚ) (q : Str) (st : St),
        (syncDocument embed st).1 = [] →
        findBestMatch embed q st = .ok (none, (syncDocument embed st).2)) ∧
    (∀ (embed : Str → List ℚ) (q : Str) (st : St),
        embed q = [] → ∃ st1, findBestMatch embed q st = .ok (none, st1)) ∧
    (∀ v1 v2 : List ℚ, v1.length = v2.length → normSq v1 = 0 ∨ normSq v2 = 0 →
        cosineSimilarity v1 v2 = .ok ⟨0, 1⟩) ∧
    (∀ v1 v2 : List ℚ, v1.length ≠ v2.length →
        cosineSimilarity v1 v2 = .error "shapes not aligned") ∧
    (∀ (embed : Str → List ℚ) (q : Str) (st : St) (r : Rec) (st1 : St),
        findBestMatch embed q st = .ok (some r, st1) →
        ∃ sr, cosineSimilarity (embed q) r.vector = .ok sr ∧
          ∀ item ∈ (syncDocument embed st).1,
            ∃ si, cosineSimilarity (embed q) item.vector = .ok si ∧ scoreGt si sr = false) :=
  ⟨findBestMatch_empty_index, findBestMatch_empty_probe, cosineSimilarity_zero_norm,
   cosineSimilarity_shape_error, findBestMatch_argmax⟩

/-- Witness for the amended C2, instantiating every part at concrete
vectors and documents. -/
theorem query_totality_amended_witness :
    findBestMatch (fun _ => ([] : List ℚ)) (txt "Q") ⟨[], []⟩ = .ok (none, ⟨[], []⟩) ∧
    (∃ st1, findBestMatch (fun _ => ([] : List ℚ)) (txt "B") ⟨txt "# A\nx", []⟩
      = .ok (none, st1)) ∧
    cosineSimilarity [(0 : ℚ)] [(1 : ℚ)] = .ok ⟨0, 1⟩ ∧
    cosineSimilarity [(1 : ℚ)] ([] : List ℚ) = .error "shapes not aligned" ∧
    (∃ sr, cosineSimilarity ((fun _ => [(1 : ℚ)]) (txt "Q"))
        (⟨txt "A", ['#', 'A'], [(1 : ℚ)]⟩ : Rec).vector = .ok sr ∧
      ∀ item ∈ (syncDocument (fun _ => [(1 : ℚ)]) ⟨['#', 'A'], []⟩).1,
        ∃ si, cosineSimilarity ((fun _ => [(1 : ℚ)]) (txt "Q")) item.vector = .ok si ∧
          scoreGt si sr = false) := by
  have hc : cosineSimilarity [(1 : ℚ)] [(1 : ℚ)] = .ok ⟨1, 1⟩ := by
    simp [cosineSimilarity, normSq, dotted]
  have hg : scoreGt ⟨1, 1⟩ ⟨-1, 1⟩ = true := by simp [scoreGt]
  have hfb : findBestMatch (fun _ => [(1 : ℚ)]) (txt "Q") ⟨['#', 'A'], []⟩
      = .ok (some ⟨['A'], ['#', 'A'], [1]⟩, ⟨['#', 'A'], [⟨['A'], ['#', 'A'], [1]⟩]⟩) := by
    simp [findBestMatch, syncDocument, recsOf, naiveChunks, naiveChunksAux, splitNL, startsW,
      trimS, isWS, joinNL, txt, bestLoop, hc, hg]
  refine ⟨(query_totality_amended.1 _ _ _ (by decide)).trans (by decide),
    query_totality_amended.2.1 _ _ ⟨txt "# A\nx", []⟩ rfl,
    query_totality_amended.2.2.1 [(0 : ℚ)] [(1 : ℚ)] (by decide)
      (Or.inl (by norm_num [normSq])),
    query_totality_amended.2.2.2.1 [(1 : ℚ)] ([] : List ℚ) (by decide),
    query_totality_amended.2.2.2.2 (fun _ => [(1 : ℚ)]) (txt "Q") ⟨['#', 'A'], []⟩
      ⟨['A'], ['#', 'A'], [1]⟩ ⟨['#', 'A'], [⟨['A'], ['#', 'A'], [1]⟩]⟩ hfb⟩

/-- C3 counterexample: a resolution call that reaches the semantic tier
rewrites the per-document embedding cache even though it commits nothing
to the document, refuting the claim that the call performs no write side
effect of its own: the final state differs from the initial one. -/
theorem resolution_cache_write_counterexample :
    processText (fun _ => []) [⟨txt "Beta", txt "sum", txt "hello"⟩] ⟨txt "# Alpha\nbody", []⟩
      = .ok ([⟨txt "Beta", noMatchSentinel, txt "hello", txt "sum"⟩],
             ⟨txt "# Alpha\nbody", [⟨txt "Alpha", txt "# Alpha\nbody", []⟩]⟩) ∧
    (⟨txt "# Alpha\nbody", [⟨txt "Alpha", txt "# Alpha\nbody", []⟩]⟩ : St)
      ≠ ⟨txt "# Alpha\nbody", []⟩ :=
  ⟨by decide, by decide⟩

/-- C3 amended: one resolution call builds its snapshot from the stored
document once, never writes the document — the document component of the
state is preserved on every successful call — and its results and error
behaviour are independent of the prior embedding cache, so every chunk is
resolved against the same initial snapshot; the only write the call
performs is the per-document embedding-cache rebuild of the semantic
tier. -/
theorem resolution_readonly_document :
    (∀ (embed : Str → List ℚ) (intents : List Intent) (st : St)
        (res : List Result) (st' : St),
        processText embed intents st = .ok (res, st') → st'.doc = st.doc) ∧
    (∀ (embed : Str → List ℚ) (intents : List Intent) (d : Str) (u w : List Rec),
        Except.map Prod.fst (processText embed intents ⟨d, u⟩)
          = Except.map Prod.fst (processText embed intents ⟨d, w⟩)) :=
  ⟨fun embed intents st res st' h =>
      processIntents_doc (buildSnapshot (getStructure st.doc)) embed intents st res st' h,
   fun embed intents d u w =>
      processIntents_indep (buildSnapshot (getStructure d)) embed intents d u w⟩

/-- Witness for the amended C3: the document survives a call that
rewrites the cache, and a stale cache entry changes nothing observable. -/
theorem resolution_readonly_document_witness :
    (⟨txt "# Alpha\nbody", [⟨txt "Alpha", txt "# Alpha\nbody", []⟩]⟩ : St).doc
      = (⟨txt "# Alpha\nbody", []⟩ : St).doc ∧
    Except.map Prod.fst (processText (fun _ => []) [⟨txt "Beta", txt "sum", txt "hello"⟩]
        ⟨txt "# Alpha\nbody", []⟩)
      = Except.map Prod.fst (processText (fun _ => []) [⟨txt "Beta", txt "sum", txt "hello"⟩]
        ⟨txt "# Alpha\nbody", [⟨txt "Stale", txt "x", [(1 : ℚ)]⟩]⟩) :=
  ⟨resolution_readonly_document.1 (fun _ => []) [⟨txt "Beta", txt "sum", txt "hello"⟩]
      ⟨txt "# Alpha\nbody", []⟩ [⟨txt "Beta", noMatchSentinel, txt "hello", txt "sum"⟩]
      ⟨txt "# Alpha\nbody", [⟨txt "Alpha", txt "# Alpha\nbody", []⟩]⟩ (by decide),
   resolution_readonly_document.2 (fun _ => []) [⟨txt "Beta", txt "sum", txt "hello"⟩]
      (txt "# Alpha\nbody") [] [⟨txt "Stale", txt "x", [(1 : ℚ)]⟩]⟩

/-- C7 counterexample: an intent whose body is empty is not skipped —
hierarchical splitting of the empty body yields one empty chunk, which is
resolved like any other chunk and contributes one result with empty new
text, refuting the claim that such an intent contributes nothing. -/
theorem empty_body_not_skipped_counterexample :
    processIntents [(txt "Alpha", txt "# Alpha\nbody")] (fun _ => [])
        [⟨txt "X", txt "Y", []⟩] ⟨txt "# Alpha\nbody", []⟩
      = .ok ([⟨txt "X", noMatchSentinel, [], txt "Y"⟩],
             ⟨txt "# Alpha\nbody", [⟨txt "Alpha", txt "# Alpha\nbody", []⟩]⟩) := by
  decide

/-- C7 amended: an empty intent body is not skipped; splitting it yields
exactly one empty chunk, and whenever the pass over that one intent
completes it contributes exactly one result whose new text is empty. -/
theorem empty_body_one_degenerate_result :
    splitChunks ([] : Str) = [([] : Str)] ∧
    (∀ (snap : List (Str × Str)) (embed : Str → List ℚ) (target summary : Str)
        (st : St) (res : List Result) (st' : St),
        processIntents snap embed [⟨target, summary, []⟩] st = .ok (res, st') →
        ∃ r, res = [r] ∧ r.newText = []) := by
  refine ⟨rfl, ?_⟩
  intro snap embed target summary st res st' h
  simp only [processIntents] at h
  have hs2 : splitChunks (Intent.mk target summary ([] : Str)).rawBody = [([] : Str)] := rfl
  rw [hs2] at h
  split at h
  · exact Except.noConfusion h
  · rename_i rs1 st1 heq1
    simp only [Except.ok.injEq, Prod.mk.injEq] at h
    simp only [resolveChunks] at heq1
    split at heq1
    · exact Except.noConfusion heq1
    · rename_i r0 stx heq0
      simp only [resolveChunks, Except.ok.injEq, Prod.mk.injEq] at heq1
      refine ⟨r0, ?_, resolveChunk_ok_newText snap embed target summary [] st r0 stx heq0⟩
      rw [← h.1, ← heq1.1]
      simp

/-- Witness for the amended C7 at a concrete empty-body intent. -/
theorem empty_body_one_degenerate_result_witness :
    ∃ r, ([⟨txt "X", noMatchSentinel, [], txt "Y"⟩] : List Result) = [r] ∧ r.newText = [] :=
  empty_body_one_degenerate_result.2 [(txt "Alpha", txt "# Alpha\nbody")] (fun _ => [])
    (txt "X") (txt "Y") ⟨txt "# Alpha\nbody", []⟩
    [⟨txt "X", noMatchSentinel, [], txt "Y"⟩]
    ⟨txt "# Alpha\nbody", [⟨txt "Alpha", txt "# Alpha\nbody", []⟩]⟩ (by decide)

end Specer
